import Mathlib

/-!
Verification of the Rehilo knowledge-graph core: the Context Resolver
(packages/domain/src/context-engine.ts) and the 2D Spatial Layout Engine
(the Graph2DLayout class).

Shallow embedding conventions:
- JS numbers in the context engine are modelled as exact rationals; the
  layout geometry (which uses Math.cos / Math.sin) is modelled over the reals.
- JS Map objects are modelled by the operations the code actually uses:
  a last-write-wins lookup function for new Map(entries) built from a list,
  and function-override updates for mutable maps.
- JS Set objects are modelled as insertion-ordered duplicate-free lists,
  because the code iterates sets (Set.forEach) in insertion order.
- Array.prototype.sort with a comparator is modelled by a stable insertion
  sort: ECMAScript mandates a stable, comparator-consistent sort, and the
  stable sorted output is uniquely determined by the comparator.
- The while loop of listDescendants has no termination guarantee (it has no
  visited-set guard).  It is modelled two ways: a one-iteration step
  function descendantsStep, used to reason about the loop itself, and a
  fuel-bounded iteration used inside buildNodeContext.  The fuel
  (n+1)^(n+1) dominates the iteration count of every terminating run, so
  the fuelled function agrees with the source wherever the source
  terminates.
- Date.parse is a host builtin; it is modelled on the ISO-8601 UTC subset
  (YYYY-MM-DD, optionally with THH:MM[:SS[.mmm]]Z), returning milliseconds
  since the Unix epoch; every other string is unparseable (NaN, i.e. none).
-/

namespace Rehilo

/-! ## String utilities (JS semantics) -/

/-- JS String.prototype.toLowerCase, modelled on ASCII plus the accented
letters that the tokenizer admits; identity elsewhere. -/
def jsToLowerChar (c : Char) : Char :=
  if 'A' ≤ c ∧ c ≤ 'Z' then Char.ofNat (c.toNat + 32)
  else if c = 'Á' then 'á'
  else if c = 'É' then 'é'
  else if c = 'Í' then 'í'
  else if c = 'Ó' then 'ó'
  else if c = 'Ú' then 'ú'
  else if c = 'Ü' then 'ü'
  else if c = 'Ñ' then 'ñ'
  else c

def jsToLower (s : String) : String :=
  String.mk (s.data.map jsToLowerChar)

def isJsSpace (c : Char) : Bool :=
  c == ' ' || c == '\t' || c == '\n' || c == '\r' || c == '\x0b' || c == '\x0c'

/-- JS String.prototype.trim, modelled on the ASCII whitespace repertoire. -/
def jsTrim (s : String) : String :=
  String.mk (((s.data.dropWhile isJsSpace).reverse.dropWhile isJsSpace).reverse)

def splitCharsAux (p : Char → Bool) : List Char → List Char → List String
  | current, [] => [String.mk current.reverse]
  | current, c :: cs =>
    if p c then String.mk current.reverse :: splitCharsAux p [] cs
    else splitCharsAux p (c :: current) cs

/-- String.prototype.split at every character satisfying p, keeping the
empty pieces that JS split produces at separator boundaries. -/
def stringSplit (s : String) (p : Char → Bool) : List String :=
  splitCharsAux p [] s.data

/-- Lexicographic comparison of char lists by code point, as the default
JS Array.prototype.sort comparator compares strings. -/
def lexLtChars : List Char → List Char → Bool
  | [], [] => false
  | [], _ :: _ => true
  | _ :: _, [] => false
  | a :: as, b :: bs =>
    if a.toNat < b.toNat then true
    else if b.toNat < a.toNat then false
    else lexLtChars as bs

def jsStrLt (a b : String) : Bool :=
  lexLtChars a.data b.data

/-- The two-element [a, b].sort() used to build undirected edge keys. -/
def sortedPair (a b : String) : String × String :=
  if jsStrLt b a then (b, a) else (a, b)

/-- new Set(xs) as an insertion-ordered duplicate-free list (first
occurrence kept). -/
def listToSet (xs : List String) : List String :=
  xs.foldl (fun acc x => if x ∈ acc then acc else acc ++ [x]) []

/-! ## Stable sort with a JS comparator

sortBy le is a stable insertion sort: an element goes before a later
element y exactly when le x y holds, and equal elements keep their input
order, which is the output ECMAScript specifies for Array.prototype.sort
with the comparator le encodes. -/

def insertSorted (le : α → α → Bool) (x : α) : List α → List α
  | [] => [x]
  | y :: ys => if le x y then x :: y :: ys else y :: insertSorted le x ys

def sortBy (le : α → α → Bool) : List α → List α
  | [] => []
  | x :: xs => insertSorted le x (sortBy le xs)

/-! ## Date.parse model -/

def isDigitChar (c : Char) : Bool :=
  48 ≤ c.toNat && c.toNat ≤ 57

def digitVal (c : Char) : Nat :=
  c.toNat - 48

def isLeapYear (y : ℤ) : Bool :=
  (y % 4 == 0 && !(y % 100 == 0)) || y % 400 == 0

def daysInMonth (y : ℤ) (m : Nat) : Nat :=
  match m with
  | 1 => 31
  | 2 => if isLeapYear y then 29 else 28
  | 3 => 31
  | 4 => 30
  | 5 => 31
  | 6 => 30
  | 7 => 31
  | 8 => 31
  | 9 => 30
  | 10 => 31
  | 11 => 30
  | 12 => 31
  | _ => 0

/-- Days from 1970-01-01 to the given proleptic-Gregorian civil date
(the standard era-based algorithm, using floor division for the era). -/
def daysFromCivil (y : ℤ) (m d : Nat) : ℤ :=
  let yAdj : ℤ := if m ≤ 2 then y - 1 else y
  let era : ℤ := Int.fdiv yAdj 400
  let yoe : ℤ := yAdj - era * 400
  let mp : ℤ := ((m : ℤ) + 9) % 12
  let doy : ℤ := (153 * mp + 2) / 5 + (d : ℤ) - 1
  let doe : ℤ := yoe * 365 + yoe / 4 - yoe / 100 + doy
  era * 146097 + doe - 719468

/-- Milliseconds within the day for the time suffix of an ISO UTC
timestamp: HH:MM followed by Z, optionally with seconds and milliseconds. -/
def parseTimePartChars : List Char → Option ℤ
  | [h1, h2, ':', m1, m2, 'Z'] =>
    if isDigitChar h1 && isDigitChar h2 && isDigitChar m1 && isDigitChar m2 then
      let hh := digitVal h1 * 10 + digitVal h2
      let mm := digitVal m1 * 10 + digitVal m2
      if hh ≤ 23 && mm ≤ 59 then some ((hh : ℤ) * 3600000 + (mm : ℤ) * 60000) else none
    else none
  | [h1, h2, ':', m1, m2, ':', s1, s2, 'Z'] =>
    if isDigitChar h1 && isDigitChar h2 && isDigitChar m1 && isDigitChar m2 &&
        isDigitChar s1 && isDigitChar s2 then
      let hh := digitVal h1 * 10 + digitVal h2
      let mm := digitVal m1 * 10 + digitVal m2
      let ss := digitVal s1 * 10 + digitVal s2
      if hh ≤ 23 && mm ≤ 59 && ss ≤ 59 then
        some ((hh : ℤ) * 3600000 + (mm : ℤ) * 60000 + (ss : ℤ) * 1000)
      else none
    else none
  | [h1, h2, ':', m1, m2, ':', s1, s2, '.', a, b, c, 'Z'] =>
    if isDigitChar h1 && isDigitChar h2 && isDigitChar m1 && isDigitChar m2 &&
        isDigitChar s1 && isDigitChar s2 && isDigitChar a && isDigitChar b && isDigitChar c then
      let hh := digitVal h1 * 10 + digitVal h2
      let mm := digitVal m1 * 10 + digitVal m2
      let ss := digitVal s1 * 10 + digitVal s2
      let ms := digitVal a * 100 + digitVal b * 10 + digitVal c
      if hh ≤ 23 && mm ≤ 59 && ss ≤ 59 then
        some ((hh : ℤ) * 3600000 + (mm : ℤ) * 60000 + (ss : ℤ) * 1000 + (ms : ℤ))
      else none
    else none
  | _ => none

def ymdDays (y1 y2 y3 y4 a1 a2 b1 b2 : Char) : Option ℤ :=
  if isDigitChar y1 && isDigitChar y2 && isDigitChar y3 && isDigitChar y4 &&
      isDigitChar a1 && isDigitChar a2 && isDigitChar b1 && isDigitChar b2 then
    let y : ℤ := ((digitVal y1 * 1000 + digitVal y2 * 100 + digitVal y3 * 10 + digitVal y4 : Nat) : ℤ)
    let m := digitVal a1 * 10 + digitVal a2
    let d := digitVal b1 * 10 + digitVal b2
    if 1 ≤ m && m ≤ 12 && 1 ≤ d && d ≤ daysInMonth y m then some (daysFromCivil y m d) else none
  else none

/-- ECMAScript Date.parse on the ISO-8601 UTC subset (date-only strings
are interpreted at UTC midnight); none models NaN. -/
def dateParse (s : String) : Option ℤ :=
  match s.data with
  | [y1, y2, y3, y4, '-', a1, a2, '-', b1, b2] =>
    (ymdDays y1 y2 y3 y4 a1 a2 b1 b2).map (fun days => days * 86400000)
  | y1 :: y2 :: y3 :: y4 :: '-' :: a1 :: a2 :: '-' :: b1 :: b2 :: 'T' :: rest =>
    match parseTimePartChars rest with
    | some t => (ymdDays y1 y2 y3 y4 a1 a2 b1 b2).map (fun days => days * 86400000 + t)
    | none => none
  | _ => none

/-- parseDateMillis from context-engine.ts: Date.parse with NaN mapped
to 0. -/
def parseDateMillis (s : String) : ℤ :=
  (dateParse s).getD 0

/-! ## Data model (packages/domain/src/node.ts) -/

structure NodeRelation where
  targetNodeId : String
  kind : Option String
deriving DecidableEq

/-- NodeEntity; the metadata bag is omitted because it is opaque to and
unused by both verified components. -/
structure NodeEntity where
  id : String
  workspaceId : String
  type : String
  title : String
  content : String
  tags : List String
  relationIds : List String
  crossWorkspaceRefs : List String
  parentId : Option String
  relations : List NodeRelation
  createdAt : String
  updatedAt : String
  status : Option String
deriving DecidableEq

/-! ## Context engine (packages/domain/src/context-engine.ts) -/

structure ContextEngineOptions where
  recentlyConnectedLimit : Option Nat
  suggestionLimit : Option Nat
  minSuggestionScore : Option ℚ
deriving DecidableEq

def noOptions : ContextEngineOptions :=
  ⟨none, none, none⟩

/-- The result of spreading DEFAULT_OPTIONS under the caller options. -/
structure ContextConfig where
  recentlyConnectedLimit : Nat
  suggestionLimit : Nat
  minSuggestionScore : ℚ
deriving DecidableEq

def resolveConfig (o : ContextEngineOptions) : ContextConfig :=
  ⟨o.recentlyConnectedLimit.getD 8, o.suggestionLimit.getD 8, o.minSuggestionScore.getD (15 / 100)⟩

structure RelatedNodeSuggestion where
  node : NodeEntity
  score : ℚ
  sharedTags : List String
  matchedKeywords : List String
deriving DecidableEq

structure NodeContextView where
  node : NodeEntity
  directRelations : List NodeEntity
  backlinks : List NodeEntity
  sharedTagNodes : List NodeEntity
  recentlyConnectedNodes : List NodeEntity
  parentNode : Option NodeEntity
  childNodes : List NodeEntity
  pendingTodosInside : List NodeEntity
  suggestedRelatedNodes : List RelatedNodeSuggestion
deriving DecidableEq

/-- toStringSet: trim, lowercase, drop empties, deduplicate. -/
def toStringSet (values : List String) : List String :=
  listToSet ((values.map (fun v => jsToLower (jsTrim v))).filter (fun v => v != ""))

def isTokenChar (c : Char) : Bool :=
  ('a' ≤ c && c ≤ 'z') || ('0' ≤ c && c ≤ '9') ||
    c == 'á' || c == 'é' || c == 'í' || c == 'ó' || c == 'ú' || c == 'ü' || c == 'ñ'

/-- tokenizeNode: lowercase title and content, replace characters outside
the letter/digit/accented class by spaces, split on whitespace, keep
tokens of length at least 3, deduplicate. -/
def tokenizeNode (node : NodeEntity) : List String :=
  let source := jsToLower (node.title ++ " " ++ node.content)
  let cleaned := String.mk (source.data.map (fun c => if isTokenChar c then c else ' '))
  listToSet (((stringSplit cleaned (fun c => c == ' ')).map jsTrim).filter
    (fun t => 3 ≤ t.length))

def intersectionFromSets (left right : List String) : List String :=
  left.filter (fun v => v ∈ right)

def jaccardSimilarity (left right : List String) : ℚ :=
  let union := listToSet (left ++ right)
  if union.length = 0 then 0
  else ((intersectionFromSets left right).length : ℚ) / (union.length : ℚ)

def intersectStrings (left right : List String) : List String :=
  (left.map jsToLower).filter (fun v => v ∈ right.map jsToLower)

def uniqueNodesGo (seen : List String) : List NodeEntity → List NodeEntity
  | [] => []
  | n :: rest =>
    if n.id ∈ seen then uniqueNodesGo seen rest
    else n :: uniqueNodesGo (n.id :: seen) rest

def uniqueNodes (nodes : List NodeEntity) : List NodeEntity :=
  uniqueNodesGo [] nodes

/-- new Map(nodes.map(c => [c.id, c])).get i — the last entry with a
given key wins. -/
def mapGetNode (nodes : List NodeEntity) (i : String) : Option NodeEntity :=
  nodes.foldl (fun acc c => if c.id == i then some c else acc) none

/-- The childrenByParentId index of listDescendants; nodes with a missing
or empty (falsy) parentId enter no bucket. -/
def childrenByParentId (nodes : List NodeEntity) (pid : String) : List NodeEntity :=
  nodes.filter (fun c =>
    match c.parentId with
    | some p => p != "" && p == pid
    | none => false)

/-- One iteration of the listDescendants while loop: shift the queue head
into descendants and push its children. -/
def descendantsStep (childrenOf : String → List NodeEntity) :
    List NodeEntity × List NodeEntity → List NodeEntity × List NodeEntity
  | (descendants, []) => (descendants, [])
  | (descendants, next :: rest) => (descendants ++ [next], rest ++ childrenOf next.id)

/-- Fuel-bounded iteration of the loop; the loop exits when the queue is
empty.  The source has no visited-set guard, so the loop itself need not
terminate — see the C3 theorem. -/
def descendantsLoop (childrenOf : String → List NodeEntity) :
    Nat → List NodeEntity × List NodeEntity → List NodeEntity
  | 0, st => st.1
  | _fuel + 1, (descendants, []) => descendants
  | fuel + 1, (descendants, next :: rest) =>
    descendantsLoop childrenOf fuel (descendantsStep childrenOf (descendants, next :: rest))

/-- listDescendants with fuel (n+1)^(n+1), which dominates the iteration
count of every terminating run of the source loop. -/
def listDescendants (parentId : String) (workspaceNodes : List NodeEntity) : List NodeEntity :=
  let childrenOf := childrenByParentId workspaceNodes
  descendantsLoop childrenOf
    ((workspaceNodes.length + 1) ^ (workspaceNodes.length + 1))
    ([], childrenOf parentId)

/-- Number(x.toFixed(4)) for a nonnegative score: round half away from
zero at 4 decimal places. -/
def round4 (q : ℚ) : ℚ :=
  ((round (q * 10000) : ℤ) : ℚ) / 10000

def mkSuggestion (baseTagSet baseKeywordSet : List String) (candidate : NodeEntity) :
    RelatedNodeSuggestion :=
  let candidateTagSet := toStringSet candidate.tags
  let candidateKeywordSet := tokenizeNode candidate
  let sharedTags := intersectionFromSets baseTagSet candidateTagSet
  let matchedKeywords := intersectionFromSets baseKeywordSet candidateKeywordSet
  let tagScore := jaccardSimilarity baseTagSet candidateTagSet
  let keywordScore := jaccardSimilarity baseKeywordSet candidateKeywordSet
  ⟨candidate, round4 (tagScore * (65 / 100) + keywordScore * (35 / 100)), sharedTags, matchedKeywords⟩

/-- The suggestion comparator: score descending, ties by updatedAt
descending; le l r holds when l may come at or before r. -/
def suggestionLe (l r : RelatedNodeSuggestion) : Bool :=
  decide (r.score < l.score) ||
    (decide (r.score = l.score) &&
      decide (parseDateMillis r.node.updatedAt ≤ parseDateMillis l.node.updatedAt))

/-- The recently-connected comparator: updatedAt descending. -/
def recentLe (l r : NodeEntity) : Bool :=
  decide (parseDateMillis r.updatedAt ≤ parseDateMillis l.updatedAt)

def rankPotentialRelatedNodes (node : NodeEntity) (workspaceNodes : List NodeEntity)
    (excludedNodeIds : List String) : List RelatedNodeSuggestion :=
  let baseTagSet := toStringSet node.tags
  let baseKeywordSet := tokenizeNode node
  sortBy suggestionLe
    (((workspaceNodes.filter (fun c => !(excludedNodeIds.contains c.id))).map
        (mkSuggestion baseTagSet baseKeywordSet)).filter
      (fun s => !s.sharedTags.isEmpty || !s.matchedKeywords.isEmpty))

/-! The local bindings of buildNodeContext are embedded as one named
definition each; buildNodeContext assembles them exactly as the source
does. -/

def workspaceNodesOf (allNodes : List NodeEntity) (node : NodeEntity) : List NodeEntity :=
  allNodes.filter (fun c => c.workspaceId == node.workspaceId)

def directRelationsOf (node : NodeEntity) (workspaceNodes : List NodeEntity) : List NodeEntity :=
  node.relations.filterMap (fun r => mapGetNode workspaceNodes r.targetNodeId)

def backlinksOf (node : NodeEntity) (workspaceNodes : List NodeEntity) : List NodeEntity :=
  workspaceNodes.filter (fun c => c.relations.any (fun r => r.targetNodeId == node.id))

def sharedTagNodesOf (node : NodeEntity) (workspaceNodes : List NodeEntity) : List NodeEntity :=
  workspaceNodes.filter (fun c =>
    !(c.id == node.id) && !(intersectStrings node.tags c.tags).isEmpty)

def recentlyConnectedNodesOf (config : ContextConfig) (node : NodeEntity)
    (workspaceNodes : List NodeEntity) : List NodeEntity :=
  (sortBy recentLe
      (uniqueNodes (directRelationsOf node workspaceNodes ++ backlinksOf node workspaceNodes))).take
    config.recentlyConnectedLimit

/-- node.parentId is truthy-tested, so an empty-string parent id resolves
to null. -/
def parentNodeOf (node : NodeEntity) (workspaceNodes : List NodeEntity) : Option NodeEntity :=
  match node.parentId with
  | some pid => if pid = "" then none else mapGetNode workspaceNodes pid
  | none => none

def childNodesOf (node : NodeEntity) (workspaceNodes : List NodeEntity) : List NodeEntity :=
  workspaceNodes.filter (fun c => c.parentId == some node.id)

def pendingTodosInsideOf (node : NodeEntity) (workspaceNodes : List NodeEntity) : List NodeEntity :=
  (listDescendants node.id workspaceNodes).filter (fun c =>
    c.type == "todo" && c.status == some "pending")

def alreadyConnectedIdsOf (node : NodeEntity) (workspaceNodes : List NodeEntity) : List String :=
  [node.id] ++ (directRelationsOf node workspaceNodes).map (fun c => c.id) ++
    (backlinksOf node workspaceNodes).map (fun c => c.id) ++
    (match parentNodeOf node workspaceNodes with | some p => [p.id] | none => []) ++
    (childNodesOf node workspaceNodes).map (fun c => c.id)

def suggestedRelatedNodesOf (config : ContextConfig) (node : NodeEntity)
    (workspaceNodes : List NodeEntity) : List RelatedNodeSuggestion :=
  ((rankPotentialRelatedNodes node workspaceNodes (alreadyConnectedIdsOf node workspaceNodes)).filter
      (fun s => config.minSuggestionScore ≤ s.score)).take config.suggestionLimit

def contextViewOf (config : ContextConfig) (node : NodeEntity)
    (allNodes : List NodeEntity) : NodeContextView :=
  let workspaceNodes := workspaceNodesOf allNodes node
  ⟨node,
    directRelationsOf node workspaceNodes,
    backlinksOf node workspaceNodes,
    sharedTagNodesOf node workspaceNodes,
    recentlyConnectedNodesOf config node workspaceNodes,
    parentNodeOf node workspaceNodes,
    childNodesOf node workspaceNodes,
    pendingTodosInsideOf node workspaceNodes,
    suggestedRelatedNodesOf config node workspaceNodes⟩

def buildNodeContext (nodeId : String) (allNodes : List NodeEntity)
    (options : ContextEngineOptions) : Option NodeContextView :=
  match allNodes.find? (fun c => c.id == nodeId) with
  | none => none
  | some node => some (contextViewOf (resolveConfig options) node allNodes)

/-! ## 2D layout engine (the Graph2DLayout class)

The class keeps five private maps that are cleared at the start of every
layout call; they are modelled as an explicit LayoutState record threaded
through the algorithm, with positions as a lookup function updated by
function override (only get / has / set are ever used on the positions
map).  Geometry is over the reals because the source uses Math.cos,
Math.sin and Math.PI.  layoutContextual is not embedded: no claim
concerns it. -/

inductive EdgeType where
  | hierarchy
  | relation
  | crossWorkspace
deriving DecidableEq

structure GraphEdge where
  source : String
  target : String
  edgeType : EdgeType
deriving DecidableEq

noncomputable section

structure Point where
  x : ℝ
  y : ℝ

structure LayoutNode where
  id : String
  x : ℝ
  y : ℝ
  radius : ℝ

structure LayoutEdge where
  source : String
  target : String
  edgeType : EdgeType
  sourcePos : Point
  targetPos : Point
  isCurved : Bool

structure LayoutConfig where
  hierarchyVerticalGap : ℝ
  childHorizontalSpacing : ℝ
  relationRadialDistance : ℝ
  minNodeDistance : ℝ
  nodeRadius : ℝ

def defaultConfig : LayoutConfig :=
  ⟨120, 100, 200, 80, 24⟩

structure LayoutState where
  nodePositions : String → Option Point
  hierarchyParents : String → Option String
  hierarchyChildren : String → List String
  relationEdges : List (String × String)
  crossWorkspaceEdges : List (String × String)

def emptyLayoutState : LayoutState :=
  ⟨fun _ => none, fun _ => none, fun _ => [], [], []⟩

def setNodePosition (st : LayoutState) (i : String) (p : Point) : LayoutState :=
  { st with nodePositions := fun j => if j == i then some p else st.nodePositions j }

/-- One edge of buildGraphStructure: hierarchy edges update the parent and
children maps, relation and cross-workspace edges are added to their
respective sets keyed by the sorted id pair. -/
def addGraphEdge (st : LayoutState) (e : GraphEdge) : LayoutState :=
  match e.edgeType with
  | .hierarchy =>
    { st with
      hierarchyParents := fun j => if j == e.target then some e.source else st.hierarchyParents j
      hierarchyChildren := fun j =>
        if j == e.source then st.hierarchyChildren e.source ++ [e.target]
        else st.hierarchyChildren j }
  | .relation =>
    let p := sortedPair e.source e.target
    if p ∈ st.relationEdges then st else { st with relationEdges := st.relationEdges ++ [p] }
  | .crossWorkspace =>
    let p := sortedPair e.source e.target
    if p ∈ st.crossWorkspaceEdges then st
    else { st with crossWorkspaceEdges := st.crossWorkspaceEdges ++ [p] }

def buildGraphStructure (edges : List GraphEdge) : LayoutState :=
  edges.foldl addGraphEdge emptyLayoutState

/-- Iterate the relation-edge set in insertion order collecting the partner
of nodeId in each pair that contains it. -/
def getRelationNodeIds (st : LayoutState) (nodeId : String) : List String :=
  st.relationEdges.filterMap (fun p =>
    if p.1 == nodeId then some p.2
    else if p.2 == nodeId then some p.1
    else none)

/-- calculateNodePosition is a stub in the source: it always returns the
origin (its comment defers actual positioning to layoutHierarchyTree). -/
def calculateNodePosition (_node : NodeEntity) (_level : Nat) : Point :=
  ⟨0, 0⟩

/-- layoutHierarchyTree, with the recursion depth bound made explicit as
structural fuel.  The source recurses only while level < depthLimit, so
with fuel = depthLimit + 1 - level the fuel-0 branch is unreachable (and
coincides with the level > depthLimit guard anyway). -/
def layoutHierarchyTreeAux (cfg : LayoutConfig) (allNodes : List NodeEntity)
    (depthLimit : Nat) : Nat → Nat → LayoutState → NodeEntity → LayoutState
  | 0, _, st, _ => st
  | fuel + 1, level, st, node =>
    if depthLimit < level then st
    else
      let position : Point := if level = 0 then ⟨0, 0⟩ else calculateNodePosition node level
      let st1 := setNodePosition st node.id position
      let childIds := st1.hierarchyChildren node.id
      let st2 :=
        if 0 < childIds.length ∧ level < depthLimit then
          let childNodes := childIds.filterMap (fun i => allNodes.find? (fun n => n.id == i))
          let childrenWidth := (childNodes.length : ℝ) * cfg.childHorizontalSpacing
          childNodes.enum.foldl (fun stAcc p =>
            let offsetX := -childrenWidth / 2 + (p.1 : ℝ) * cfg.childHorizontalSpacing +
              cfg.childHorizontalSpacing / 2
            let childPos : Point := ⟨position.x + offsetX, position.y + cfg.hierarchyVerticalGap⟩
            layoutHierarchyTreeAux cfg allNodes depthLimit fuel (level + 1)
              (setNodePosition stAcc p.2.id childPos) p.2) st1
        else st1
      if level = 0 then
        match st2.hierarchyParents node.id with
        | some parentId =>
          if parentId ≠ "" ∧ level < depthLimit then
            if (allNodes.find? (fun n => n.id == parentId)).isSome then
              setNodePosition st2 parentId ⟨0, -cfg.hierarchyVerticalGap⟩
            else st2
          else st2
        | none => st2
      else st2

def layoutHierarchyTree (cfg : LayoutConfig) (allNodes : List NodeEntity) (depthLimit : Nat)
    (st : LayoutState) (node : NodeEntity) : LayoutState :=
  layoutHierarchyTreeAux cfg allNodes depthLimit (depthLimit + 1) 0 st node

def layoutRadialRelations (cfg : LayoutConfig) (st : LayoutState) (selectedNodeId : String)
    (allNodes : List NodeEntity) : LayoutState :=
  match st.nodePositions selectedNodeId with
  | none => st
  | some selectedPos =>
    let relationNodeIds := getRelationNodeIds st selectedNodeId
    let newRelationNodes :=
      (relationNodeIds.filter (fun i => (st.nodePositions i).isNone)).filterMap
        (fun i => allNodes.find? (fun n => n.id == i))
    if newRelationNodes.length = 0 then st
    else
      let angleStep : ℝ := 2 * Real.pi / (newRelationNodes.length : ℝ)
      newRelationNodes.enum.foldl (fun stAcc p =>
        let angle := angleStep * (p.1 : ℝ)
        setNodePosition stAcc p.2.id
          ⟨selectedPos.x + Real.cos angle * cfg.relationRadialDistance,
            selectedPos.y + Real.sin angle * cfg.relationRadialDistance⟩) st

def constructLayoutNodes (cfg : LayoutConfig) (st : LayoutState)
    (nodes : List NodeEntity) : List LayoutNode :=
  nodes.map (fun node =>
    let pos := (st.nodePositions node.id).getD ⟨0, 0⟩
    ⟨node.id, pos.x, pos.y, cfg.nodeRadius⟩)

def constructLayoutEdges (st : LayoutState) (edges : List GraphEdge) : List LayoutEdge :=
  edges.filterMap (fun e =>
    match st.nodePositions e.source, st.nodePositions e.target with
    | some sourcePos, some targetPos =>
      some ⟨e.source, e.target, e.edgeType, sourcePos, targetPos,
        decide (e.edgeType = .relation ∨ e.edgeType = .crossWorkspace)⟩
    | some _, none => none
    | none, some _ => none
    | none, none => none)

structure LayoutResult where
  nodes : List LayoutNode
  edges : List LayoutEdge

def layoutAllNodesCircle (cfg : LayoutConfig) (st : LayoutState) (nodes : List NodeEntity)
    (edges : List GraphEdge) : LayoutResult :=
  let radius : ℝ := min 300 (max 150 ((nodes.length : ℝ) * 30))
  let angleStep : ℝ := 2 * Real.pi / ((max 1 nodes.length : ℕ) : ℝ)
  let stDone := nodes.enum.foldl (fun stAcc p =>
    let angle := angleStep * (p.1 : ℝ)
    setNodePosition stAcc p.2.id ⟨Real.cos angle * radius, Real.sin angle * radius⟩) st
  ⟨constructLayoutNodes cfg stDone nodes, constructLayoutEdges stDone edges⟩

namespace Graph2DLayout

/-- The positioned-node state after the hierarchy and radial steps of the
standard layout mode (the internally computed positioned set). -/
def standardFinalState (cfg : LayoutConfig) (nodes : List NodeEntity) (edges : List GraphEdge)
    (selectedNodeId : String) (depthLimit : Nat) (selectedNode : NodeEntity) : LayoutState :=
  layoutRadialRelations cfg
    (layoutHierarchyTree cfg nodes depthLimit (buildGraphStructure edges) selectedNode)
    selectedNodeId nodes

def layout (cfg : LayoutConfig) (nodes : List NodeEntity) (edges : List GraphEdge)
    (selectedNodeId : String) (depthLimit : Nat) : LayoutResult :=
  let st := buildGraphStructure edges
  match nodes.find? (fun n => n.id == selectedNodeId) with
  | none => layoutAllNodesCircle cfg st nodes edges
  | some selectedNode =>
    let st1 := layoutHierarchyTree cfg nodes depthLimit st selectedNode
    let st2 := layoutRadialRelations cfg st1 selectedNodeId nodes
    ⟨constructLayoutNodes cfg st2 nodes, constructLayoutEdges st2 edges⟩

end Graph2DLayout

end

/-! ## Concrete inputs used by the scenario theorems and witnesses -/

/-- A minimal node; scenario nodes override the fields they need. -/
def baseNode (id : String) : NodeEntity :=
  ⟨id, "w", "note", "", "", [], [], [], none, [],
    "2024-01-01T00:00:00.000Z", "2024-01-01T00:00:00.000Z", none⟩

def c1F : NodeEntity :=
  { baseNode "F" with parentId := some "P", relationIds := ["R"], relations := [⟨"R", none⟩] }

def c1P : NodeEntity := baseNode "P"

def c1C1 : NodeEntity := { baseNode "C1" with parentId := some "F" }

def c1C2 : NodeEntity := { baseNode "C2" with parentId := some "F" }

def c1R : NodeEntity := baseNode "R"

def c1Nodes : List NodeEntity := [c1F, c1P, c1C1, c1C2, c1R]

def c1Edges : List GraphEdge :=
  [⟨"P", "F", .hierarchy⟩, ⟨"F", "C1", .hierarchy⟩, ⟨"F", "C2", .hierarchy⟩,
    ⟨"F", "R", .relation⟩]

def c2F : NodeEntity := baseNode "F"

def c2Z : NodeEntity := baseNode "Z"

def c2Nodes : List NodeEntity := [c2F, c2Z]

def c3Node : NodeEntity := { baseNode "a" with parentId := some "a" }

def c7A : NodeEntity := { baseNode "a" with updatedAt := "1969-12-31" }

def c7B : NodeEntity := { baseNode "b" with updatedAt := "not-a-date" }

def c7F : NodeEntity :=
  { baseNode "f" with relationIds := ["a", "b"], relations := [⟨"a", none⟩, ⟨"b", none⟩] }

def c7Nodes : List NodeEntity := [c7F, c7A, c7B]

def emptyContextView : NodeContextView :=
  ⟨baseNode "", [], [], [], [], none, [], [], []⟩

def c7Ctx : NodeContextView :=
  (buildNodeContext "f" c7Nodes noOptions).getD emptyContextView

def c10Node : NodeEntity :=
  { baseNode "s" with relationIds := ["s"], relations := [⟨"s", none⟩] }

def c10Ctx : NodeContextView :=
  (buildNodeContext "s" [c10Node] noOptions).getD emptyContextView

def w4F : NodeEntity := { baseNode "f4" with tags := ["Research", "q1"] }

def w4X : NodeEntity :=
  { baseNode "x4" with tags := ["research ", "Q1"], updatedAt := "2024-02-01" }

def w4Other : NodeEntity := { baseNode "o4" with workspaceId := "other" }

def w4Nodes : List NodeEntity := [w4F, w4X, w4Other]

def c4Ctx : NodeContextView :=
  (buildNodeContext "f4" w4Nodes noOptions).getD emptyContextView

def c8Nodes : List NodeEntity := [baseNode "a8", baseNode "b8"]

def c9F : NodeEntity := { baseNode "F9" with relationIds := ["R9"], relations := [⟨"R9", none⟩] }

def c9R : NodeEntity := baseNode "R9"

def c9Q : NodeEntity := baseNode "Q9"

def c9Nodes : List NodeEntity := [c9F, c9R, c9Q]

def c9Edges : List GraphEdge :=
  [⟨"F9", "R9", .relation⟩, ⟨"Q9", "W9", .relation⟩]

/-! ## General lemmas about the embedded primitives -/

theorem insertSorted_perm (le : α → α → Bool) (x : α) (l : List α) :
    List.Perm (insertSorted le x l) (x :: l) := by
  induction l with
  | nil => exact List.Perm.refl _
  | cons y ys ih =>
    simp only [insertSorted]
    split
    · exact List.Perm.refl _
    · exact (ih.cons y).trans (List.Perm.swap x y ys)

theorem sortBy_perm (le : α → α → Bool) (l : List α) : List.Perm (sortBy le l) l := by
  induction l with
  | nil => exact List.Perm.refl _
  | cons x xs ih => exact (insertSorted_perm le x (sortBy le xs)).trans (ih.cons x)

theorem mem_insertSorted {le : α → α → Bool} {x z : α} {l : List α}
    (h : z ∈ insertSorted le x l) : z = x ∨ z ∈ l := by
  have := (insertSorted_perm le x l).mem_iff.mp h
  simpa using this

theorem insertSorted_pairwise {le : α → α → Bool}
    (htrans : ∀ a b c, le a b = true → le b c = true → le a c = true)
    (htotal : ∀ a b, le a b = true ∨ le b a = true)
    (x : α) {l : List α} (hl : l.Pairwise (fun a b => le a b = true)) :
    (insertSorted le x l).Pairwise (fun a b => le a b = true) := by
  induction l with
  | nil => simp [insertSorted]
  | cons y ys ih =>
    rcases List.pairwise_cons.mp hl with ⟨hy, hys⟩
    simp only [insertSorted]
    split
    · rename_i hxy
      refine List.pairwise_cons.mpr ⟨?_, hl⟩
      intro z hz
      rcases List.mem_cons.mp hz with rfl | hz
      · exact hxy
      · exact htrans x y z hxy (hy z hz)
    · rename_i hxy
      have hyx : le y x = true := by
        rcases htotal x y with h | h
        · exact absurd h hxy
        · exact h
      refine List.pairwise_cons.mpr ⟨?_, ih hys⟩
      intro z hz
      rcases mem_insertSorted hz with rfl | hz
      · exact hyx
      · exact hy z hz

theorem sortBy_pairwise {le : α → α → Bool}
    (htrans : ∀ a b c, le a b = true → le b c = true → le a c = true)
    (htotal : ∀ a b, le a b = true ∨ le b a = true)
    (l : List α) : (sortBy le l).Pairwise (fun a b => le a b = true) := by
  induction l with
  | nil => simp [sortBy]
  | cons x xs ih => exact insertSorted_pairwise htrans htotal x ih

theorem mem_uniqueNodesGo {x : NodeEntity} :
    ∀ {seen : List String} {l : List NodeEntity}, x ∈ uniqueNodesGo seen l → x ∈ l := by
  intro seen l
  induction l generalizing seen with
  | nil => intro h; simp [uniqueNodesGo] at h
  | cons n rest ih =>
    intro h
    simp only [uniqueNodesGo] at h
    split at h
    · exact List.mem_cons_of_mem _ (ih h)
    · rcases List.mem_cons.mp h with rfl | h
      · exact List.mem_cons_self _ _
      · exact List.mem_cons_of_mem _ (ih h)

theorem uniqueNodesGo_id_notin_seen {x : NodeEntity} :
    ∀ {seen : List String} {l : List NodeEntity}, x ∈ uniqueNodesGo seen l → x.id ∉ seen := by
  intro seen l
  induction l generalizing seen with
  | nil => intro h; simp [uniqueNodesGo] at h
  | cons n rest ih =>
    intro h
    simp only [uniqueNodesGo] at h
    split at h
    · exact ih h
    · rcases List.mem_cons.mp h with rfl | h
      · assumption
      · intro hx
        exact ih h (List.mem_cons_of_mem _ hx)

theorem uniqueNodesGo_pairwise :
    ∀ (seen : List String) (l : List NodeEntity),
      (uniqueNodesGo seen l).Pairwise (fun a b => a.id ≠ b.id) := by
  intro seen l
  induction l generalizing seen with
  | nil => simp [uniqueNodesGo]
  | cons n rest ih =>
    simp only [uniqueNodesGo]
    split
    · exact ih seen
    · refine List.pairwise_cons.mpr ⟨?_, ih (n.id :: seen)⟩
      intro y hy hny
      exact uniqueNodesGo_id_notin_seen hy (by simp [hny])

theorem uniqueNodes_perm_pairwise (nodes : List NodeEntity) :
    (uniqueNodes nodes).Pairwise (fun a b => a.id ≠ b.id) :=
  uniqueNodesGo_pairwise [] nodes

theorem mapGetNode_aux (i : String) (x : NodeEntity) :
    ∀ (nodes : List NodeEntity) (acc : Option NodeEntity),
      nodes.foldl (fun acc c => if c.id == i then some c else acc) acc = some x →
      (x ∈ nodes ∧ x.id = i) ∨ acc = some x := by
  intro nodes
  induction nodes with
  | nil =>
    intro acc h
    exact Or.inr h
  | cons c cs ih =>
    intro acc h
    simp only [List.foldl_cons] at h
    rcases ih _ h with h1 | h2
    · exact Or.inl ⟨List.mem_cons_of_mem _ h1.1, h1.2⟩
    · by_cases hc : c.id == i
      · rw [if_pos hc] at h2
        have hcx : c = x := by simpa using h2
        refine Or.inl ⟨hcx ▸ List.mem_cons_self c cs, ?_⟩
        subst hcx
        simpa using hc
      · rw [if_neg hc] at h2
        exact Or.inr h2

theorem mapGetNode_eq_some {nodes : List NodeEntity} {i : String} {x : NodeEntity}
    (h : mapGetNode nodes i = some x) : x ∈ nodes ∧ x.id = i := by
  rcases mapGetNode_aux i x nodes none h with h1 | h2
  · exact h1
  · simp at h2

theorem descendantsLoop_preserve (P : NodeEntity → Prop)
    (childrenOf : String → List NodeEntity)
    (hch : ∀ i, ∀ y ∈ childrenOf i, P y) :
    ∀ (fuel : Nat) (d q : List NodeEntity), (∀ y ∈ d, P y) → (∀ y ∈ q, P y) →
      ∀ x ∈ descendantsLoop childrenOf fuel (d, q), P x := by
  intro fuel
  induction fuel with
  | zero =>
    intro d q hd _ x hx
    exact hd x hx
  | succ n ih =>
    intro d q hd hq x hx
    match q with
    | [] =>
      simp only [descendantsLoop] at hx
      exact hd x hx
    | next :: rest =>
      simp only [descendantsLoop, descendantsStep] at hx
      refine ih (d ++ [next]) (rest ++ childrenOf next.id) ?_ ?_ x hx
      · intro y hy
        rcases List.mem_append.mp hy with hy | hy
        · exact hd y hy
        · simp at hy
          exact hy ▸ hq next (List.mem_cons_self _ _)
      · intro y hy
        rcases List.mem_append.mp hy with hy | hy
        · exact hq y (List.mem_cons_of_mem _ hy)
        · exact hch next.id y hy

theorem mem_listDescendants {x node : NodeEntity} {parentId : String}
    {workspaceNodes : List NodeEntity}
    (hws : ∀ y ∈ workspaceNodes, y.workspaceId = node.workspaceId)
    (h : x ∈ listDescendants parentId workspaceNodes) :
    x.workspaceId = node.workspaceId := by
  have hch : ∀ i, ∀ y ∈ childrenByParentId workspaceNodes i, y.workspaceId = node.workspaceId := by
    intro i y hy
    exact hws y (List.mem_of_mem_filter hy)
  exact descendantsLoop_preserve _ _ hch _ [] _ (by simp) (hch parentId) x h

theorem suggestionLe_iff (l r : RelatedNodeSuggestion) :
    suggestionLe l r = true ↔
      (r.score < l.score ∨ (r.score = l.score ∧
        parseDateMillis r.node.updatedAt ≤ parseDateMillis l.node.updatedAt)) := by
  simp [suggestionLe]

theorem suggestionLe_trans (a b c : RelatedNodeSuggestion)
    (hab : suggestionLe a b = true) (hbc : suggestionLe b c = true) :
    suggestionLe a c = true := by
  rw [suggestionLe_iff] at *
  rcases hab with h1 | ⟨h1, d1⟩ <;> rcases hbc with h2 | ⟨h2, d2⟩
  · exact Or.inl (h2.trans h1)
  · exact Or.inl (h2 ▸ h1)
  · exact Or.inl (h1 ▸ h2)
  · exact Or.inr ⟨h2.trans h1, d2.trans d1⟩

theorem suggestionLe_total (a b : RelatedNodeSuggestion) :
    suggestionLe a b = true ∨ suggestionLe b a = true := by
  rw [suggestionLe_iff, suggestionLe_iff]
  rcases lt_trichotomy b.score a.score with h | h | h
  · exact Or.inl (Or.inl h)
  · rcases le_total (parseDateMillis b.node.updatedAt) (parseDateMillis a.node.updatedAt) with
      hd | hd
    · exact Or.inl (Or.inr ⟨h, hd⟩)
    · exact Or.inr (Or.inr ⟨h.symm, hd⟩)
  · exact Or.inr (Or.inl h)

theorem recentLe_iff (l r : NodeEntity) :
    recentLe l r = true ↔ parseDateMillis r.updatedAt ≤ parseDateMillis l.updatedAt := by
  simp [recentLe]

theorem recentLe_trans (a b c : NodeEntity)
    (hab : recentLe a b = true) (hbc : recentLe b c = true) : recentLe a c = true := by
  rw [recentLe_iff] at *
  exact hbc.trans hab

theorem recentLe_total (a b : NodeEntity) : recentLe a b = true ∨ recentLe b a = true := by
  rw [recentLe_iff, recentLe_iff]
  exact (le_total _ _).symm

theorem buildNodeContext_some {nodeId : String} {allNodes : List NodeEntity}
    {options : ContextEngineOptions} {ctx : NodeContextView}
    (h : buildNodeContext nodeId allNodes options = some ctx) :
    ∃ node, allNodes.find? (fun c => c.id == nodeId) = some node ∧
      ctx = contextViewOf (resolveConfig options) node allNodes := by
  unfold buildNodeContext at h
  cases hfind : allNodes.find? (fun c => c.id == nodeId) with
  | none => rw [hfind] at h; simp at h
  | some node =>
    rw [hfind] at h
    refine ⟨node, rfl, ?_⟩
    injection h with h2
    exact h2.symm

theorem contextViewOf_node (config : ContextConfig) (node : NodeEntity)
    (allNodes : List NodeEntity) : (contextViewOf config node allNodes).node = node := rfl

theorem contextViewOf_directRelations (config : ContextConfig) (node : NodeEntity)
    (allNodes : List NodeEntity) :
    (contextViewOf config node allNodes).directRelations =
      directRelationsOf node (workspaceNodesOf allNodes node) := rfl

theorem contextViewOf_backlinks (config : ContextConfig) (node : NodeEntity)
    (allNodes : List NodeEntity) :
    (contextViewOf config node allNodes).backlinks =
      backlinksOf node (workspaceNodesOf allNodes node) := rfl

theorem contextViewOf_sharedTagNodes (config : ContextConfig) (node : NodeEntity)
    (allNodes : List NodeEntity) :
    (contextViewOf config node allNodes).sharedTagNodes =
      sharedTagNodesOf node (workspaceNodesOf allNodes node) := rfl

theorem contextViewOf_recentlyConnected (config : ContextConfig) (node : NodeEntity)
    (allNodes : List NodeEntity) :
    (contextViewOf config node allNodes).recentlyConnectedNodes =
      recentlyConnectedNodesOf config node (workspaceNodesOf allNodes node) := rfl

theorem contextViewOf_parentNode (config : ContextConfig) (node : NodeEntity)
    (allNodes : List NodeEntity) :
    (contextViewOf config node allNodes).parentNode =
      parentNodeOf node (workspaceNodesOf allNodes node) := rfl

theorem contextViewOf_childNodes (config : ContextConfig) (node : NodeEntity)
    (allNodes : List NodeEntity) :
    (contextViewOf config node allNodes).childNodes =
      childNodesOf node (workspaceNodesOf allNodes node) := rfl

theorem contextViewOf_pendingTodos (config : ContextConfig) (node : NodeEntity)
    (allNodes : List NodeEntity) :
    (contextViewOf config node allNodes).pendingTodosInside =
      pendingTodosInsideOf node (workspaceNodesOf allNodes node) := rfl

theorem contextViewOf_suggested (config : ContextConfig) (node : NodeEntity)
    (allNodes : List NodeEntity) :
    (contextViewOf config node allNodes).suggestedRelatedNodes =
      suggestedRelatedNodesOf config node (workspaceNodesOf allNodes node) := rfl

theorem mem_workspaceNodesOf {allNodes : List NodeEntity} {node m : NodeEntity}
    (h : m ∈ workspaceNodesOf allNodes node) :
    m ∈ allNodes ∧ m.workspaceId = node.workspaceId := by
  have := List.mem_filter.mp h
  exact ⟨this.1, by simpa using this.2⟩

theorem mem_directRelationsOf {node m : NodeEntity} {ws : List NodeEntity}
    (h : m ∈ directRelationsOf node ws) : m ∈ ws := by
  rcases List.mem_filterMap.mp h with ⟨r, _, hr⟩
  exact (mapGetNode_eq_some hr).1

theorem mem_recentlyConnectedNodesOf {config : ContextConfig} {node m : NodeEntity}
    {ws : List NodeEntity} (h : m ∈ recentlyConnectedNodesOf config node ws) :
    m ∈ directRelationsOf node ws ∨ m ∈ backlinksOf node ws := by
  have h1 := List.mem_of_mem_take h
  have h2 := (sortBy_perm recentLe _).mem_iff.mp h1
  have h3 := mem_uniqueNodesGo h2
  exact List.mem_append.mp h3

theorem parentNodeOf_eq_some {node p : NodeEntity} {ws : List NodeEntity}
    (h : parentNodeOf node ws = some p) : p ∈ ws ∧ node.parentId = some p.id := by
  unfold parentNodeOf at h
  cases hp : node.parentId with
  | none => rw [hp] at h; simp at h
  | some pid =>
    rw [hp] at h
    have h2 : (if pid = "" then none else mapGetNode ws pid) = some p := h
    by_cases he : pid = ""
    · rw [if_pos he] at h2; simp at h2
    · rw [if_neg he] at h2
      rcases mapGetNode_eq_some h2 with ⟨hm, hid⟩
      exact ⟨hm, by rw [hid]⟩

/-- Anatomy of a returned suggestion: it was built by mkSuggestion from a
workspace candidate outside the already-connected id set, passed the
shared-tag-or-keyword filter and the minimum-score filter. -/
theorem mem_suggestedRelatedNodesOf {config : ContextConfig} {node : NodeEntity}
    {ws : List NodeEntity} {s : RelatedNodeSuggestion}
    (h : s ∈ suggestedRelatedNodesOf config node ws) :
    ∃ cand, cand ∈ ws ∧ s = mkSuggestion (toStringSet node.tags) (tokenizeNode node) cand ∧
      cand.id ∉ alreadyConnectedIdsOf node ws ∧
      (s.sharedTags ≠ [] ∨ s.matchedKeywords ≠ []) ∧
      config.minSuggestionScore ≤ s.score := by
  unfold suggestedRelatedNodesOf at h
  have h1 := List.mem_of_mem_take h
  rcases List.mem_filter.mp h1 with ⟨h2, hscore⟩
  unfold rankPotentialRelatedNodes at h2
  have h3 := (sortBy_perm suggestionLe _).mem_iff.mp h2
  rcases List.mem_filter.mp h3 with ⟨h4, hshare⟩
  rcases List.mem_map.mp h4 with ⟨cand, hcand, hmk⟩
  rcases List.mem_filter.mp hcand with ⟨hws, hexcl⟩
  refine ⟨cand, hws, hmk.symm, ?_, ?_, by simpa using hscore⟩
  · simpa using hexcl
  · rw [Bool.or_eq_true] at hshare
    rcases hshare with hb | hb
    · exact Or.inl (by simpa using hb)
    · exact Or.inr (by simpa using hb)

theorem rank_pairwise (node : NodeEntity) (ws : List NodeEntity) (excl : List String) :
    (rankPotentialRelatedNodes node ws excl).Pairwise (fun a b => suggestionLe a b = true) := by
  unfold rankPotentialRelatedNodes
  exact sortBy_pairwise suggestionLe_trans suggestionLe_total _

theorem node_id_mem_alreadyConnected (node : NodeEntity) (ws : List NodeEntity) :
    node.id ∈ alreadyConnectedIdsOf node ws := by
  unfold alreadyConnectedIdsOf
  simp only [List.mem_append]
  exact Or.inl (Or.inl (Or.inl (Or.inl (by simp))))

theorem direct_id_mem_alreadyConnected {node d : NodeEntity} {ws : List NodeEntity}
    (hd : d ∈ directRelationsOf node ws) : d.id ∈ alreadyConnectedIdsOf node ws := by
  unfold alreadyConnectedIdsOf
  simp only [List.mem_append]
  exact Or.inl (Or.inl (Or.inl (Or.inr (List.mem_map.mpr ⟨d, hd, rfl⟩))))

theorem backlink_id_mem_alreadyConnected {node b : NodeEntity} {ws : List NodeEntity}
    (hb : b ∈ backlinksOf node ws) : b.id ∈ alreadyConnectedIdsOf node ws := by
  unfold alreadyConnectedIdsOf
  simp only [List.mem_append]
  exact Or.inl (Or.inl (Or.inr (List.mem_map.mpr ⟨b, hb, rfl⟩)))

theorem parent_id_mem_alreadyConnected {node p : NodeEntity} {ws : List NodeEntity}
    (hp : parentNodeOf node ws = some p) : p.id ∈ alreadyConnectedIdsOf node ws := by
  unfold alreadyConnectedIdsOf
  simp only [List.mem_append]
  refine Or.inl (Or.inr ?_)
  rw [hp]
  simp

theorem child_id_mem_alreadyConnected {node c : NodeEntity} {ws : List NodeEntity}
    (hc : c ∈ childNodesOf node ws) : c.id ∈ alreadyConnectedIdsOf node ws := by
  unfold alreadyConnectedIdsOf
  simp only [List.mem_append]
  exact Or.inr (List.mem_map.mpr ⟨c, hc, rfl⟩)

/-! ## Claim theorems -/

/-- C4: every suggestion returned by buildNodeContext shares at least one
normalized tag or one keyword token with the focal node, carries the score
0.65 x tag-Jaccard + 0.35 x keyword-Jaccard rounded to 4 decimal places,
meets the minimum-score threshold, and the suggestion list is sorted by
score descending with ties broken by updatedAt descending and is no longer
than the suggestion limit. -/
theorem c4_suggestion_list_spec (nodeId : String) (allNodes : List NodeEntity)
    (options : ContextEngineOptions) (ctx : NodeContextView)
    (h : buildNodeContext nodeId allNodes options = some ctx) :
    ctx.suggestedRelatedNodes.length ≤ (resolveConfig options).suggestionLimit ∧
    ctx.suggestedRelatedNodes.Pairwise (fun a b =>
      b.score < a.score ∨ (b.score = a.score ∧
        parseDateMillis b.node.updatedAt ≤ parseDateMillis a.node.updatedAt)) ∧
    ∀ s ∈ ctx.suggestedRelatedNodes,
      (intersectionFromSets (toStringSet ctx.node.tags) (toStringSet s.node.tags) ≠ [] ∨
        intersectionFromSets (tokenizeNode ctx.node) (tokenizeNode s.node) ≠ []) ∧
      s.score = round4
        (jaccardSimilarity (toStringSet ctx.node.tags) (toStringSet s.node.tags) * (65 / 100) +
          jaccardSimilarity (tokenizeNode ctx.node) (tokenizeNode s.node) * (35 / 100)) ∧
      (resolveConfig options).minSuggestionScore ≤ s.score := by
  rcases buildNodeContext_some h with ⟨node, hfind, rfl⟩
  rw [contextViewOf_suggested, contextViewOf_node]
  refine ⟨?_, ?_, ?_⟩
  · exact List.length_take_le _ _
  · refine List.Pairwise.imp (fun hab => (suggestionLe_iff _ _).mp hab) ?_
    exact List.Pairwise.sublist (List.take_sublist _ _)
      ((rank_pairwise node _ _).filter _)
  · intro s hs
    rcases mem_suggestedRelatedNodesOf hs with ⟨cand, hcand, rfl, hexcl, hshare, hmin⟩
    exact ⟨hshare, rfl, hmin⟩

/-- C5: no suggestion is the focal node, a direct relation, a backlink,
the parent or a child (by node id). -/
theorem c5_suggestion_exclusions (nodeId : String) (allNodes : List NodeEntity)
    (options : ContextEngineOptions) (ctx : NodeContextView)
    (h : buildNodeContext nodeId allNodes options = some ctx) :
    ∀ s ∈ ctx.suggestedRelatedNodes,
      s.node.id ≠ ctx.node.id ∧
      (∀ d ∈ ctx.directRelations, s.node.id ≠ d.id) ∧
      (∀ b ∈ ctx.backlinks, s.node.id ≠ b.id) ∧
      (∀ p, ctx.parentNode = some p → s.node.id ≠ p.id) ∧
      (∀ c ∈ ctx.childNodes, s.node.id ≠ c.id) := by
  rcases buildNodeContext_some h with ⟨node, hfind, rfl⟩
  rw [contextViewOf_suggested, contextViewOf_node, contextViewOf_directRelations,
    contextViewOf_backlinks, contextViewOf_parentNode, contextViewOf_childNodes]
  intro s hs
  rcases mem_suggestedRelatedNodesOf hs with ⟨cand, hcand, rfl, hexcl, _, _⟩
  refine ⟨?_, ?_, ?_, ?_, ?_⟩
  · intro he
    apply hexcl
    have he2 : cand.id = node.id := he
    rw [he2]
    exact node_id_mem_alreadyConnected node _
  · intro d hd he
    apply hexcl
    have he2 : cand.id = d.id := he
    rw [he2]
    exact direct_id_mem_alreadyConnected hd
  · intro b hb he
    apply hexcl
    have he2 : cand.id = b.id := he
    rw [he2]
    exact backlink_id_mem_alreadyConnected hb
  · intro p hp he
    apply hexcl
    have he2 : cand.id = p.id := he
    rw [he2]
    exact parent_id_mem_alreadyConnected hp
  · intro c hc he
    apply hexcl
    have he2 : cand.id = c.id := he
    rw [he2]
    exact child_id_mem_alreadyConnected hc

/-- C6: every node surfacing in any field of the context view belongs to
the workspace of the focal node. -/
theorem c6_workspace_isolation (nodeId : String) (allNodes : List NodeEntity)
    (options : ContextEngineOptions) (ctx : NodeContextView)
    (h : buildNodeContext nodeId allNodes options = some ctx) :
    (∀ m ∈ ctx.directRelations, m.workspaceId = ctx.node.workspaceId) ∧
    (∀ m ∈ ctx.backlinks, m.workspaceId = ctx.node.workspaceId) ∧
    (∀ m ∈ ctx.sharedTagNodes, m.workspaceId = ctx.node.workspaceId) ∧
    (∀ m ∈ ctx.recentlyConnectedNodes, m.workspaceId = ctx.node.workspaceId) ∧
    (∀ p, ctx.parentNode = some p → p.workspaceId = ctx.node.workspaceId) ∧
    (∀ m ∈ ctx.childNodes, m.workspaceId = ctx.node.workspaceId) ∧
    (∀ m ∈ ctx.pendingTodosInside, m.workspaceId = ctx.node.workspaceId) ∧
    (∀ s ∈ ctx.suggestedRelatedNodes, s.node.workspaceId = ctx.node.workspaceId) := by
  rcases buildNodeContext_some h with ⟨node, hfind, rfl⟩
  rw [contextViewOf_node, contextViewOf_directRelations, contextViewOf_backlinks,
    contextViewOf_sharedTagNodes, contextViewOf_recentlyConnected, contextViewOf_parentNode,
    contextViewOf_childNodes, contextViewOf_pendingTodos, contextViewOf_suggested]
  have hwm : ∀ m ∈ workspaceNodesOf allNodes node, m.workspaceId = node.workspaceId :=
    fun m hm => (mem_workspaceNodesOf hm).2
  refine ⟨?_, ?_, ?_, ?_, ?_, ?_, ?_, ?_⟩
  · exact fun m hm => hwm m (mem_directRelationsOf hm)
  · exact fun m hm => hwm m (List.mem_of_mem_filter hm)
  · exact fun m hm => hwm m (List.mem_of_mem_filter hm)
  · intro m hm
    rcases mem_recentlyConnectedNodesOf hm with hd | hb
    · exact hwm m (mem_directRelationsOf hd)
    · exact hwm m (List.mem_of_mem_filter hb)
  · exact fun p hp => hwm p (parentNodeOf_eq_some hp).1
  · exact fun m hm => hwm m (List.mem_of_mem_filter hm)
  · exact fun m hm => mem_listDescendants hwm (List.mem_of_mem_filter hm)
  · intro s hs
    rcases mem_suggestedRelatedNodesOf hs with ⟨cand, hcand, rfl, _, _, _⟩
    exact hwm cand hcand

/-- C7 (amended): the recently-connected list is the take-prefix of a
permutation of the id-deduplicated union of direct relations and
backlinks, sorted by updatedAt descending where an UNPARSEABLE timestamp
is treated as the epoch 1970-01-01T00:00:00Z (millis 0) — not as earlier
than every parseable timestamp — and its entries have pairwise distinct
ids. -/
theorem c7_recently_connected_amended (nodeId : String) (allNodes : List NodeEntity)
    (options : ContextEngineOptions) (ctx : NodeContextView)
    (h : buildNodeContext nodeId allNodes options = some ctx) :
    ∃ l, List.Perm l (uniqueNodes (ctx.directRelations ++ ctx.backlinks)) ∧
      l.Pairwise (fun a b => parseDateMillis b.updatedAt ≤ parseDateMillis a.updatedAt) ∧
      ctx.recentlyConnectedNodes = l.take (resolveConfig options).recentlyConnectedLimit ∧
      ctx.recentlyConnectedNodes.Pairwise (fun a b => a.id ≠ b.id) := by
  rcases buildNodeContext_some h with ⟨node, hfind, rfl⟩
  rw [contextViewOf_recentlyConnected, contextViewOf_directRelations, contextViewOf_backlinks]
  refine ⟨sortBy recentLe
      (uniqueNodes (directRelationsOf node (workspaceNodesOf allNodes node) ++
        backlinksOf node (workspaceNodesOf allNodes node))),
    sortBy_perm _ _, ?_, rfl, ?_⟩
  · exact List.Pairwise.imp (fun hab => (recentLe_iff _ _).mp hab)
      (sortBy_pairwise recentLe_trans recentLe_total _)
  · refine List.Pairwise.sublist (List.take_sublist _ _) ?_
    refine (List.Perm.pairwise_iff (fun {a b} hab => Ne.symm hab)
      (sortBy_perm recentLe _)).mpr ?_
    exact uniqueNodes_perm_pairwise _

/-- C7 counterexample: node a has a parseable pre-1970 updatedAt
(millis -86400000) and node b an unparseable one (treated as 0); the code
sorts b BEFORE a, so an unparseable timestamp does not sort after every
parseable timestamp as the claim states. -/
theorem c7_counterexample :
    (buildNodeContext "f" c7Nodes noOptions).map
        (fun ctx => ctx.recentlyConnectedNodes.map (fun n => n.id)) = some ["b", "a"] ∧
    dateParse c7A.updatedAt = some (-86400000) ∧
    dateParse c7B.updatedAt = none := by
  refine ⟨by decide, by decide, by decide⟩

/-- C10: when the focal node lists itself among its relation targets it
appears in its own backlinks, while shared-tag nodes and suggestions still
exclude it by id. -/
theorem c10_self_relation (nodeId : String) (allNodes : List NodeEntity)
    (options : ContextEngineOptions) (ctx : NodeContextView)
    (h : buildNodeContext nodeId allNodes options = some ctx)
    (hself : ∃ r ∈ ctx.node.relations, r.targetNodeId = ctx.node.id) :
    ctx.node ∈ ctx.backlinks ∧
    (∀ m ∈ ctx.sharedTagNodes, m.id ≠ ctx.node.id) ∧
    (∀ s ∈ ctx.suggestedRelatedNodes, s.node.id ≠ ctx.node.id) := by
  rcases buildNodeContext_some h with ⟨node, hfind, rfl⟩
  rw [contextViewOf_node] at hself
  rw [contextViewOf_node, contextViewOf_backlinks, contextViewOf_sharedTagNodes,
    contextViewOf_suggested]
  refine ⟨?_, ?_, ?_⟩
  · have hmem : node ∈ allNodes := List.mem_of_find?_eq_some hfind
    have hws : node ∈ workspaceNodesOf allNodes node := List.mem_filter.mpr ⟨hmem, by simp⟩
    refine List.mem_filter.mpr ⟨hws, ?_⟩
    rcases hself with ⟨r, hr, hrt⟩
    exact List.any_eq_true.mpr ⟨r, hr, by simp [hrt]⟩
  · intro m hm
    have hpred := (List.mem_filter.mp hm).2
    rw [Bool.and_eq_true] at hpred
    simpa using hpred.1
  · intro s hs
    rcases mem_suggestedRelatedNodesOf hs with ⟨cand, _, rfl, hexcl, _, _⟩
    intro he
    apply hexcl
    have he2 : cand.id = node.id := he
    rw [he2]
    exact node_id_mem_alreadyConnected node _

/-- C3: the descendant BFS of listDescendants has no visited-set guard.
On a node that is its own parent the loop queue equals [c3Node] after
every iteration, so the condition of the while loop never becomes false
and the source loop never terminates; buildNodeContext therefore does not
terminate on this input, contradicting the claim. -/
theorem c3_descendant_loop_diverges (n : Nat) :
    ((descendantsStep (childrenByParentId [c3Node]))^[n]
        ([], childrenByParentId [c3Node] "a")).2 = [c3Node] := by
  induction n with
  | zero =>
    rw [Function.iterate_zero_apply]
    decide
  | succ k ih =>
    rw [Function.iterate_succ_apply']
    rcases hst : (descendantsStep (childrenByParentId [c3Node]))^[k]
        ([], childrenByParentId [c3Node] "a") with ⟨d, q⟩
    rw [hst] at ih
    simp only at ih
    subst ih
    show (descendantsStep (childrenByParentId [c3Node]) (d, [c3Node])).2 = [c3Node]
    simp only [descendantsStep]
    decide

/-! ## Layout lemmas -/

theorem layout_eq_fallback {cfg : LayoutConfig} {nodes : List NodeEntity}
    {edges : List GraphEdge} {sel : String} {d : Nat}
    (h : nodes.find? (fun n => n.id == sel) = none) :
    Graph2DLayout.layout cfg nodes edges sel d =
      layoutAllNodesCircle cfg (buildGraphStructure edges) nodes edges := by
  unfold Graph2DLayout.layout
  rw [h]

theorem layout_eq_standard {cfg : LayoutConfig} {nodes : List NodeEntity}
    {edges : List GraphEdge} {sel : String} {d : Nat} {node : NodeEntity}
    (h : nodes.find? (fun n => n.id == sel) = some node) :
    Graph2DLayout.layout cfg nodes edges sel d =
      ⟨constructLayoutNodes cfg (Graph2DLayout.standardFinalState cfg nodes edges sel d node)
          nodes,
        constructLayoutEdges (Graph2DLayout.standardFinalState cfg nodes edges sel d node)
          edges⟩ := by
  unfold Graph2DLayout.layout Graph2DLayout.standardFinalState layoutHierarchyTree
  rw [h]

theorem constructLayoutEdges_anatomy {st : LayoutState} {edges : List GraphEdge}
    {le : LayoutEdge} (h : le ∈ constructLayoutEdges st edges) :
    ∃ e, e ∈ edges ∧ le.source = e.source ∧ le.target = e.target ∧
      le.edgeType = e.edgeType ∧
      st.nodePositions e.source = some le.sourcePos ∧
      st.nodePositions e.target = some le.targetPos ∧
      le.isCurved = decide (e.edgeType = EdgeType.relation ∨
        e.edgeType = EdgeType.crossWorkspace) := by
  rcases List.mem_filterMap.mp h with ⟨e, he, hf⟩
  cases hs : st.nodePositions e.source with
  | none =>
    cases ht : st.nodePositions e.target with
    | none => rw [hs, ht] at hf; simp at hf
    | some tp => rw [hs, ht] at hf; simp at hf
  | some sp =>
    cases ht : st.nodePositions e.target with
    | none => rw [hs, ht] at hf; simp at hf
    | some tp =>
      rw [hs, ht] at hf
      have hle : (⟨e.source, e.target, e.edgeType, sp, tp,
          decide (e.edgeType = EdgeType.relation ∨ e.edgeType = EdgeType.crossWorkspace)⟩ :
            LayoutEdge) = le := by
        simpa using hf
      subst hle
      exact ⟨e, he, rfl, rfl, rfl, hs, ht, rfl⟩

theorem layout_edges_from_construct (cfg : LayoutConfig) (nodes : List NodeEntity)
    (edges : List GraphEdge) (sel : String) (d : Nat) :
    ∃ st, (Graph2DLayout.layout cfg nodes edges sel d).edges = constructLayoutEdges st edges := by
  cases hfind : nodes.find? (fun n => n.id == sel) with
  | none => exact ⟨_, by rw [layout_eq_fallback hfind]; rfl⟩
  | some node => exact ⟨_, by rw [layout_eq_standard hfind]⟩

/-- C9: an edge with an endpoint missing from the positioned set is
silently dropped from the output edge list, and every returned edge is
curved exactly when its type is relation or cross-workspace and straight
exactly when its type is hierarchy. -/
theorem c9_edge_semantics (cfg : LayoutConfig) (nodes : List NodeEntity)
    (edges : List GraphEdge) (sel : String) (d : Nat) :
    (∀ le ∈ (Graph2DLayout.layout cfg nodes edges sel d).edges,
      (le.isCurved = true ↔
        (le.edgeType = EdgeType.relation ∨ le.edgeType = EdgeType.crossWorkspace)) ∧
      (le.isCurved = false ↔ le.edgeType = EdgeType.hierarchy)) ∧
    (∀ (st : LayoutState), ∀ e ∈ edges,
      (st.nodePositions e.source = none ∨ st.nodePositions e.target = none) →
      ∀ le ∈ constructLayoutEdges st edges, ¬(le.source = e.source ∧ le.target = e.target)) := by
  constructor
  · intro le hle
    rcases layout_edges_from_construct cfg nodes edges sel d with ⟨st, hst⟩
    rw [hst] at hle
    rcases constructLayoutEdges_anatomy hle with ⟨e, _, _, _, hty, _, _, hcur⟩
    rw [hty, hcur]
    constructor
    · simp
    · cases e.edgeType <;> simp
  · rintro st e he hnone le hle ⟨h1, h2⟩
    rcases constructLayoutEdges_anatomy hle with ⟨e2, _, hsrc, htgt, _, hs2, ht2, _⟩
    rcases hnone with hn | hn
    · rw [hsrc.symm.trans h1] at hs2
      rw [hn] at hs2
      exact Option.noConfusion hs2
    · rw [htgt.symm.trans h2] at ht2
      rw [hn] at ht2
      exact Option.noConfusion ht2

/-- C2 (amended): in standard layout mode the returned node list has one
entry per input node, in input order; a node positioned by neither the
hierarchy step nor the radial step is NOT omitted — it is returned with
the default position (0, 0). -/
theorem c2_amended_nodes_not_omitted (cfg : LayoutConfig) (nodes : List NodeEntity)
    (edges : List GraphEdge) (sel : String) (d : Nat) (node : NodeEntity)
    (hfind : nodes.find? (fun n => n.id == sel) = some node) :
    ((Graph2DLayout.layout cfg nodes edges sel d).nodes.map (fun p => p.id) =
      nodes.map (fun n => n.id)) ∧
    ∀ p ∈ (Graph2DLayout.layout cfg nodes edges sel d).nodes,
      (Graph2DLayout.standardFinalState cfg nodes edges sel d node).nodePositions p.id = none →
      p.x = 0 ∧ p.y = 0 := by
  rw [layout_eq_standard hfind]
  constructor
  · unfold constructLayoutNodes
    rw [List.map_map]
    rfl
  · intro p hp hnone
    rcases List.mem_map.mp hp with ⟨n, hn, hpe⟩
    subst hpe
    have h0 : (Graph2DLayout.standardFinalState cfg nodes edges sel d node).nodePositions n.id
        = none := hnone
    constructor <;> simp [h0]

theorem circleFold_lookup_notmem (g : ℕ × NodeEntity → Point) :
    ∀ (l : List (ℕ × NodeEntity)) (st : LayoutState) (j : String),
      (∀ p ∈ l, p.2.id ≠ j) →
      (l.foldl (fun stAcc p => setNodePosition stAcc p.2.id (g p)) st).nodePositions j =
        st.nodePositions j := by
  intro l
  induction l with
  | nil => intro st j _; rfl
  | cons p rest ih =>
    intro st j hne
    rw [List.foldl_cons, ih _ _ (fun q hq => hne q (List.mem_cons_of_mem _ hq))]
    have hne2 : j ≠ p.2.id := fun hj => (hne p (List.mem_cons_self _ _)) hj.symm
    simp [setNodePosition, hne2]

theorem circleFold_lookup_mem (g : ℕ × NodeEntity → Point) :
    ∀ (l : List (ℕ × NodeEntity)) (st : LayoutState) (q : ℕ × NodeEntity),
      q ∈ l → (l.map (fun p => p.2.id)).Nodup →
      (l.foldl (fun stAcc p => setNodePosition stAcc p.2.id (g p)) st).nodePositions q.2.id =
        some (g q) := by
  intro l
  induction l with
  | nil => intro st q hq _; simp at hq
  | cons p rest ih =>
    intro st q hq hnd
    simp only [List.map_cons, List.nodup_cons] at hnd
    rw [List.foldl_cons]
    rcases List.mem_cons.mp hq with rfl | hq2
    · have hne : ∀ r ∈ rest, r.2.id ≠ q.2.id := by
        intro r hr he
        exact hnd.1 (he ▸ List.mem_map.mpr ⟨r, hr, rfl⟩)
      rw [circleFold_lookup_notmem g rest _ q.2.id hne]
      simp [setNodePosition]
    · exact ih _ q hq2 hnd.2

/-- The fallback circle layout: node i is placed at angle
2 pi / max 1 n * i on the circle of radius min 300 (max 150 (n * 30)). -/
theorem layoutAllNodesCircle_spec (cfg : LayoutConfig) (st : LayoutState)
    (nodes : List NodeEntity) (edges : List GraphEdge)
    (hnd : (nodes.map (fun n => n.id)).Nodup) :
    ((layoutAllNodesCircle cfg st nodes edges).nodes.map (fun p => p.id) =
      nodes.map (fun n => n.id)) ∧
    ((layoutAllNodesCircle cfg st nodes edges).nodes.map (fun p => (p.x, p.y)) =
      (List.range nodes.length).map (fun (i : ℕ) =>
        (Real.cos (2 * Real.pi / ((max 1 nodes.length : ℕ) : ℝ) * (i : ℝ)) *
            min 300 (max 150 ((nodes.length : ℝ) * 30)),
          Real.sin (2 * Real.pi / ((max 1 nodes.length : ℕ) : ℝ) * (i : ℝ)) *
            min 300 (max 150 ((nodes.length : ℝ) * 30))))) := by
  have hnd2 : (nodes.enum.map (fun p => p.2.id)).Nodup := by
    have h1 : nodes.enum.map (fun p => p.2.id) = nodes.map (fun n => n.id) := by
      rw [show (fun p : ℕ × NodeEntity => p.2.id) =
        ((fun n : NodeEntity => n.id) ∘ Prod.snd) from rfl]
      rw [← List.map_map, List.enum_map_snd]
    rw [h1]
    exact hnd
  have hN : (layoutAllNodesCircle cfg st nodes edges).nodes =
      constructLayoutNodes cfg
        (nodes.enum.foldl (fun stAcc p => setNodePosition stAcc p.2.id
          ⟨Real.cos (2 * Real.pi / ((max 1 nodes.length : ℕ) : ℝ) * (p.1 : ℝ)) *
              min 300 (max 150 ((nodes.length : ℝ) * 30)),
            Real.sin (2 * Real.pi / ((max 1 nodes.length : ℕ) : ℝ) * (p.1 : ℝ)) *
              min 300 (max 150 ((nodes.length : ℝ) * 30))⟩) st) nodes := rfl
  have hlook : ∀ i (hi : i < nodes.length),
      ((nodes.enum.foldl (fun stAcc p => setNodePosition stAcc p.2.id
          ⟨Real.cos (2 * Real.pi / ((max 1 nodes.length : ℕ) : ℝ) * (p.1 : ℝ)) *
              min 300 (max 150 ((nodes.length : ℝ) * 30)),
            Real.sin (2 * Real.pi / ((max 1 nodes.length : ℕ) : ℝ) * (p.1 : ℝ)) *
              min 300 (max 150 ((nodes.length : ℝ) * 30))⟩) st).nodePositions
        nodes[i].id) =
        some ⟨Real.cos (2 * Real.pi / ((max 1 nodes.length : ℕ) : ℝ) * (i : ℝ)) *
            min 300 (max 150 ((nodes.length : ℝ) * 30)),
          Real.sin (2 * Real.pi / ((max 1 nodes.length : ℕ) : ℝ) * (i : ℝ)) *
            min 300 (max 150 ((nodes.length : ℝ) * 30))⟩ := by
    intro i hi
    have hmem : (i, nodes[i]) ∈ nodes.enum := by
      have hb : i < nodes.enum.length := by simpa using hi
      have hge : nodes.enum.get ⟨i, hb⟩ = (i, nodes[i]) := by
        rw [List.get_eq_getElem]
        exact List.getElem_enum _ _ _
      exact hge ▸ List.get_mem _ _ hb
    exact circleFold_lookup_mem
      (fun p => ⟨Real.cos (2 * Real.pi / ((max 1 nodes.length : ℕ) : ℝ) * (p.1 : ℝ)) *
          min 300 (max 150 ((nodes.length : ℝ) * 30)),
        Real.sin (2 * Real.pi / ((max 1 nodes.length : ℕ) : ℝ) * (p.1 : ℝ)) *
          min 300 (max 150 ((nodes.length : ℝ) * 30))⟩)
      nodes.enum st (i, nodes[i]) hmem hnd2
  rw [hN]
  unfold constructLayoutNodes
  constructor
  · rw [List.map_map]
    rfl
  · rw [List.map_map]
    apply List.ext_getElem
    · simp
    · intro i h1 h2
      have hi : i < nodes.length := by simpa using h1
      simp only [List.getElem_map, List.getElem_range, Function.comp_apply]
      rw [hlook i hi]
      rfl

/-- C8: when the focal id resolves to no input node, the layout returns
exactly one position per input node (ids in input order), with node i
placed at angle 2 pi / max 1 n * i on the circle of radius
min 300 (max 150 (n * 30)) — so every returned point lies on that
circle. -/
theorem c8_fallback_circle (cfg : LayoutConfig) (nodes : List NodeEntity)
    (edges : List GraphEdge) (sel : String) (d : Nat)
    (hfind : nodes.find? (fun n => n.id == sel) = none)
    (hnd : (nodes.map (fun n => n.id)).Nodup) :
    ((Graph2DLayout.layout cfg nodes edges sel d).nodes.map (fun p => p.id) =
      nodes.map (fun n => n.id)) ∧
    ((Graph2DLayout.layout cfg nodes edges sel d).nodes.map (fun p => (p.x, p.y)) =
      (List.range nodes.length).map (fun (i : ℕ) =>
        (Real.cos (2 * Real.pi / ((max 1 nodes.length : ℕ) : ℝ) * (i : ℝ)) *
            min 300 (max 150 ((nodes.length : ℝ) * 30)),
          Real.sin (2 * Real.pi / ((max 1 nodes.length : ℕ) : ℝ) * (i : ℝ)) *
            min 300 (max 150 ((nodes.length : ℝ) * 30))))) ∧
    ∀ p ∈ (Graph2DLayout.layout cfg nodes edges sel d).nodes,
      p.x ^ 2 + p.y ^ 2 = (min 300 (max 150 ((nodes.length : ℝ) * 30))) ^ 2 := by
  rw [layout_eq_fallback hfind]
  rcases layoutAllNodesCircle_spec cfg (buildGraphStructure edges) nodes edges hnd with
    ⟨hids, hcoords⟩
  refine ⟨hids, hcoords, ?_⟩
  intro p hp
  have hpair : (p.x, p.y) ∈
      (layoutAllNodesCircle cfg (buildGraphStructure edges) nodes edges).nodes.map
        (fun p => (p.x, p.y)) :=
    List.mem_map.mpr ⟨p, hp, rfl⟩
  rw [hcoords] at hpair
  rcases List.mem_map.mp hpair with ⟨i, _, heq⟩
  have hx : p.x = Real.cos (2 * Real.pi / ((max 1 nodes.length : ℕ) : ℝ) * (i : ℝ)) *
      min 300 (max 150 ((nodes.length : ℝ) * 30)) := by
    have := congrArg Prod.fst heq
    simpa using this.symm
  have hy : p.y = Real.sin (2 * Real.pi / ((max 1 nodes.length : ℕ) : ℝ) * (i : ℝ)) *
      min 300 (max 150 ((nodes.length : ℝ) * 30)) := by
    have := congrArg Prod.snd heq
    simpa using this.symm
  rw [hx, hy]
  have key := Real.sin_sq_add_cos_sq
    (2 * Real.pi / ((max 1 nodes.length : ℕ) : ℝ) * (i : ℝ))
  nlinarith [key]

set_option maxHeartbeats 2000000

/-- C1: evaluating the standard layout on the scenario (focal F with
parent P, children C1 and C2, one relation R, depthLimit 2, default
geometry 120/100/200).  F sits at the origin, P at (0, -120), R on the
relation circle at (200, 0), and the edges carry the specified kinds and
curvature flags — but BOTH children end at (0, 0) instead of the centered
row (-50, 120) and (50, 120): each recursive layoutHierarchyTree call
overwrites the child position just computed by its parent with the
constant (0, 0) that the calculateNodePosition stub returns. -/
theorem c1_children_overwritten_to_origin :
    ((Graph2DLayout.layout defaultConfig c1Nodes c1Edges "F" 2).nodes.map
        (fun p => (p.id, p.x, p.y)) =
      [("F", (0 : ℝ), (0 : ℝ)), ("P", 0, -120), ("C1", 0, 0), ("C2", 0, 0), ("R", 200, 0)]) ∧
    ((Graph2DLayout.layout defaultConfig c1Nodes c1Edges "F" 2).edges.map
        (fun e => (e.source, e.target, e.edgeType, e.isCurved)) =
      [("P", "F", EdgeType.hierarchy, false), ("F", "C1", EdgeType.hierarchy, false),
        ("F", "C2", EdgeType.hierarchy, false), ("F", "R", EdgeType.relation, true)]) := by
  have hfF : c1Nodes.find? (fun n => n.id == "F") = some c1F := rfl
  have hF : (Graph2DLayout.standardFinalState defaultConfig c1Nodes c1Edges "F" 2
      c1F).nodePositions "F" = some ⟨0, 0⟩ := rfl
  have hP : (Graph2DLayout.standardFinalState defaultConfig c1Nodes c1Edges "F" 2
      c1F).nodePositions "P" = some ⟨0, -120⟩ := rfl
  have hC1 : (Graph2DLayout.standardFinalState defaultConfig c1Nodes c1Edges "F" 2
      c1F).nodePositions "C1" = some ⟨0, 0⟩ := rfl
  have hC2 : (Graph2DLayout.standardFinalState defaultConfig c1Nodes c1Edges "F" 2
      c1F).nodePositions "C2" = some ⟨0, 0⟩ := rfl
  have hR : (Graph2DLayout.standardFinalState defaultConfig c1Nodes c1Edges "F" 2
      c1F).nodePositions "R" = some ⟨200, 0⟩ := by
    have h1 : (layoutHierarchyTree defaultConfig c1Nodes 2 (buildGraphStructure c1Edges)
        c1F).nodePositions "F" = some ⟨0, 0⟩ := rfl
    have h2 : (layoutHierarchyTree defaultConfig c1Nodes 2 (buildGraphStructure c1Edges)
        c1F).nodePositions "R" = none := rfl
    have h3 : (layoutHierarchyTree defaultConfig c1Nodes 2 (buildGraphStructure c1Edges)
        c1F).relationEdges = [("F", "R")] := rfl
    have h4 : c1Nodes.find? (fun n => n.id == "R") = some c1R := rfl
    have hcfg : defaultConfig.relationRadialDistance = 200 := rfl
    simp +decide only [Graph2DLayout.standardFinalState, layoutRadialRelations,
      getRelationNodeIds, h1, h2, h3, h4, setNodePosition, List.filterMap_cons,
      List.filterMap_nil, List.filter_cons, List.filter_nil, List.length_cons,
      List.length_nil, List.enum, List.enumFrom, List.foldl_cons, List.foldl_nil,
      Option.isNone_none, if_true, if_false, reduceIte, hcfg, c1R, baseNode]
    norm_num [Real.cos_zero, Real.sin_zero]
  have hidF : c1F.id = "F" := rfl
  have hidP : c1P.id = "P" := rfl
  have hidC1 : c1C1.id = "C1" := rfl
  have hidC2 : c1C2.id = "C2" := rfl
  have hidR : c1R.id = "R" := rfl
  constructor
  · rw [layout_eq_standard hfF]
    set S := Graph2DLayout.standardFinalState defaultConfig c1Nodes c1Edges "F" 2 c1F with hS
    simp +decide only [constructLayoutNodes, List.map_map, List.map_cons, List.map_nil,
      Function.comp, c1Nodes, hidF, hidP, hidC1, hidC2, hidR, hF, hP, hC1, hC2, hR,
      Option.getD_some]
  · rw [layout_eq_standard hfF]
    set S := Graph2DLayout.standardFinalState defaultConfig c1Nodes c1Edges "F" 2 c1F with hS
    simp +decide only [constructLayoutEdges, c1Edges, List.filterMap_cons,
      List.filterMap_nil, List.map_cons, List.map_nil, hF, hP, hC1, hC2, hR,
      decide_True, decide_False]

/-- C2 counterexample: with input nodes F (the focal node) and Z
(connected to nothing), Z is positioned by neither the hierarchy step nor
the radial step — its id has no entry in the internally positioned set —
yet Z is NOT omitted from the returned node list. -/
theorem c2_counterexample :
    (Graph2DLayout.standardFinalState defaultConfig c2Nodes [] "F" 3 c2F).nodePositions "Z"
        = none ∧
    (Graph2DLayout.layout defaultConfig c2Nodes [] "F" 3).nodes.map (fun p => p.id)
        = ["F", "Z"] :=
  ⟨rfl, rfl⟩

/-! ## Witness theorems

The witness inputs leave ℚ arithmetic to norm_num: the rational
operations of Batteries are irreducible, so the suggestion list of the
concrete witness context is evaluated by the staged lemmas below. -/

theorem tagJaccard_eval :
    jaccardSimilarity (toStringSet w4F.tags) (toStringSet w4X.tags) = 1 := by
  have e1 : toStringSet w4F.tags = ["research", "q1"] := rfl
  have e2 : toStringSet w4X.tags = ["research", "q1"] := rfl
  have e3 : listToSet (["research", "q1"] ++ ["research", "q1"]) = ["research", "q1"] := rfl
  have e4 : intersectionFromSets ["research", "q1"] ["research", "q1"] = ["research", "q1"] := rfl
  rw [e1, e2]
  unfold jaccardSimilarity
  rw [e3, e4]
  norm_num

theorem keywordJaccard_eval :
    jaccardSimilarity (tokenizeNode w4F) (tokenizeNode w4X) = 0 := by
  have e1 : tokenizeNode w4F = [] := rfl
  have e2 : tokenizeNode w4X = [] := rfl
  rw [e1, e2]
  rfl

theorem round4_sugg_eval : round4 (1 * (65 / 100) + 0 * (35 / 100)) = 13 / 20 := by
  have h1 : (1 : ℚ) * (65 / 100) + 0 * (35 / 100) = 13 / 20 := by norm_num
  unfold round4
  rw [h1]
  have h2 : (13 : ℚ) / 20 * 10000 = 6500 := by norm_num
  rw [h2]
  have h3 : round (6500 : ℚ) = 6500 := by
    rw [round_eq, Int.floor_eq_iff]
    constructor
    · norm_num
    · norm_num
  rw [h3]
  norm_num

theorem mkSuggestion_w4X_eval :
    mkSuggestion (toStringSet w4F.tags) (tokenizeNode w4F) w4X =
      ⟨w4X, 13 / 20, ["research", "q1"], []⟩ := by
  have e5 : intersectionFromSets (toStringSet w4F.tags) (toStringSet w4X.tags) =
      ["research", "q1"] := rfl
  have e6 : intersectionFromSets (tokenizeNode w4F) (tokenizeNode w4X) = [] := rfl
  simp only [mkSuggestion, tagJaccard_eval, keywordJaccard_eval, round4_sugg_eval, e5, e6]

theorem c4Ctx_suggested_eval :
    c4Ctx.suggestedRelatedNodes =
      [⟨w4X, 13 / 20, ["research", "q1"], []⟩] := by
  have h0 : c4Ctx.suggestedRelatedNodes =
      suggestedRelatedNodesOf (resolveConfig noOptions) w4F (workspaceNodesOf w4Nodes w4F) := rfl
  rw [h0]
  have hws : workspaceNodesOf w4Nodes w4F = [w4F, w4X] := rfl
  have hexcl : alreadyConnectedIdsOf w4F [w4F, w4X] = ["f4"] := rfl
  have hcand : [w4F, w4X].filter (fun c => !(List.contains ["f4"] c.id)) = [w4X] := rfl
  have hd : decide ((resolveConfig noOptions).minSuggestionScore ≤ (13 : ℚ) / 20) = true := by
    rw [decide_eq_true_eq]
    show (15 : ℚ) / 100 ≤ 13 / 20
    norm_num
  have hlim : (resolveConfig noOptions).suggestionLimit = 8 := rfl
  unfold suggestedRelatedNodesOf rankPotentialRelatedNodes
  rw [hws, hexcl, hcand]
  simp only [hlim, List.map_cons, List.map_nil, mkSuggestion_w4X_eval, List.filter_cons,
    List.filter_nil, sortBy, insertSorted, hd, List.take_succ_cons, List.take_nil,
    List.isEmpty_cons, List.isEmpty_nil, Bool.not_false, Bool.not_true, Bool.true_or,
    Bool.false_or, if_true, if_false, reduceIte]

theorem c2_amended_witness :
    c2Nodes.find? (fun n => n.id == "F") = some c2F ∧
    (Graph2DLayout.layout defaultConfig c2Nodes [] "F" 3).nodes.map (fun p => p.id) =
      c2Nodes.map (fun n => n.id) :=
  ⟨rfl, (c2_amended_nodes_not_omitted defaultConfig c2Nodes [] "F" 3 c2F rfl).1⟩

theorem c4_witness :
    buildNodeContext "f4" w4Nodes noOptions = some c4Ctx ∧
    c4Ctx.suggestedRelatedNodes.length ≤ (resolveConfig noOptions).suggestionLimit ∧
    c4Ctx.suggestedRelatedNodes.map (fun s => s.score) = [13 / 20] := by
  refine ⟨rfl, (c4_suggestion_list_spec "f4" w4Nodes noOptions c4Ctx rfl).1, ?_⟩
  rw [c4Ctx_suggested_eval]
  rfl

theorem c5_witness :
    buildNodeContext "f4" w4Nodes noOptions = some c4Ctx ∧
    (⟨w4X, 13 / 20, ["research", "q1"], []⟩ : RelatedNodeSuggestion) ∈
      c4Ctx.suggestedRelatedNodes ∧
    (⟨w4X, 13 / 20, ["research", "q1"], []⟩ : RelatedNodeSuggestion).node.id ≠
      c4Ctx.node.id := by
  refine ⟨rfl, ?_, ?_⟩
  · rw [c4Ctx_suggested_eval]
    exact List.mem_cons_self _ _
  · exact ((c5_suggestion_exclusions "f4" w4Nodes noOptions c4Ctx rfl) _
      (by rw [c4Ctx_suggested_eval]; exact List.mem_cons_self _ _)).1

theorem c6_witness :
    buildNodeContext "f4" w4Nodes noOptions = some c4Ctx ∧
    (⟨w4X, 13 / 20, ["research", "q1"], []⟩ : RelatedNodeSuggestion).node.workspaceId =
      c4Ctx.node.workspaceId := by
  refine ⟨rfl, ?_⟩
  exact (c6_workspace_isolation "f4" w4Nodes noOptions c4Ctx rfl).2.2.2.2.2.2.2 _
    (by rw [c4Ctx_suggested_eval]; exact List.mem_cons_self _ _)

theorem c7_amended_witness :
    buildNodeContext "f" c7Nodes noOptions = some c7Ctx ∧
    (∃ l, List.Perm l (uniqueNodes (c7Ctx.directRelations ++ c7Ctx.backlinks)) ∧
      l.Pairwise (fun a b => parseDateMillis b.updatedAt ≤ parseDateMillis a.updatedAt) ∧
      c7Ctx.recentlyConnectedNodes = l.take (resolveConfig noOptions).recentlyConnectedLimit ∧
      c7Ctx.recentlyConnectedNodes.Pairwise (fun a b => a.id ≠ b.id)) :=
  ⟨rfl, c7_recently_connected_amended "f" c7Nodes noOptions c7Ctx rfl⟩

theorem c8_witness :
    c8Nodes.find? (fun n => n.id == "nope") = none ∧
    (c8Nodes.map (fun n => n.id)).Nodup ∧
    (Graph2DLayout.layout defaultConfig c8Nodes [] "nope" 3).nodes.map (fun p => p.id) =
      c8Nodes.map (fun n => n.id) :=
  ⟨rfl, by decide, (c8_fallback_circle defaultConfig c8Nodes [] "nope" 3 rfl (by decide)).1⟩

theorem c9_witness :
    ((Graph2DLayout.layout defaultConfig c9Nodes c9Edges "F9" 3).edges =
      [⟨"F9", "R9", EdgeType.relation, ⟨0, 0⟩, ⟨200, 0⟩, true⟩]) ∧
    ((⟨"F9", "R9", EdgeType.relation, ⟨0, 0⟩, ⟨200, 0⟩, true⟩ : LayoutEdge).isCurved = true ↔
      ((⟨"F9", "R9", EdgeType.relation, ⟨0, 0⟩, ⟨200, 0⟩, true⟩ : LayoutEdge).edgeType =
          EdgeType.relation ∨
        (⟨"F9", "R9", EdgeType.relation, ⟨0, 0⟩, ⟨200, 0⟩, true⟩ : LayoutEdge).edgeType =
          EdgeType.crossWorkspace)) ∧
    ¬((⟨"F9", "R9", EdgeType.relation, ⟨0, 0⟩, ⟨200, 0⟩, true⟩ : LayoutEdge).source = "Q9" ∧
      (⟨"F9", "R9", EdgeType.relation, ⟨0, 0⟩, ⟨200, 0⟩, true⟩ : LayoutEdge).target = "W9") := by
  have hfF : c9Nodes.find? (fun n => n.id == "F9") = some c9F := rfl
  have hF9 : (Graph2DLayout.standardFinalState defaultConfig c9Nodes c9Edges "F9" 3
      c9F).nodePositions "F9" = some ⟨0, 0⟩ := rfl
  have hQ9 : (Graph2DLayout.standardFinalState defaultConfig c9Nodes c9Edges "F9" 3
      c9F).nodePositions "Q9" = none := rfl
  have hW9 : (Graph2DLayout.standardFinalState defaultConfig c9Nodes c9Edges "F9" 3
      c9F).nodePositions "W9" = none := rfl
  have hR9 : (Graph2DLayout.standardFinalState defaultConfig c9Nodes c9Edges "F9" 3
      c9F).nodePositions "R9" = some ⟨200, 0⟩ := by
    have h1 : (layoutHierarchyTree defaultConfig c9Nodes 3 (buildGraphStructure c9Edges)
        c9F).nodePositions "F9" = some ⟨0, 0⟩ := rfl
    have h2 : (layoutHierarchyTree defaultConfig c9Nodes 3 (buildGraphStructure c9Edges)
        c9F).nodePositions "R9" = none := rfl
    have h3 : (layoutHierarchyTree defaultConfig c9Nodes 3 (buildGraphStructure c9Edges)
        c9F).relationEdges = [("F9", "R9"), ("Q9", "W9")] := rfl
    have h4 : c9Nodes.find? (fun n => n.id == "R9") = some c9R := rfl
    have hcfg : defaultConfig.relationRadialDistance = 200 := rfl
    simp +decide only [Graph2DLayout.standardFinalState, layoutRadialRelations,
      getRelationNodeIds, h1, h2, h3, h4, setNodePosition, List.filterMap_cons,
      List.filterMap_nil, List.filter_cons, List.filter_nil, List.length_cons,
      List.length_nil, List.enum, List.enumFrom, List.foldl_cons, List.foldl_nil,
      Option.isNone_none, if_true, if_false, reduceIte, hcfg, c9R, baseNode]
    norm_num [Real.cos_zero, Real.sin_zero]
  have heval : (Graph2DLayout.layout defaultConfig c9Nodes c9Edges "F9" 3).edges =
      [⟨"F9", "R9", EdgeType.relation, ⟨0, 0⟩, ⟨200, 0⟩, true⟩] := by
    rw [layout_eq_standard hfF]
    set S := Graph2DLayout.standardFinalState defaultConfig c9Nodes c9Edges "F9" 3 c9F with hS
    simp +decide only [constructLayoutEdges, c9Edges, List.filterMap_cons,
      List.filterMap_nil, hF9, hR9, hQ9, hW9, decide_True, decide_False]
  have hlink : (Graph2DLayout.layout defaultConfig c9Nodes c9Edges "F9" 3).edges =
      constructLayoutEdges
        (Graph2DLayout.standardFinalState defaultConfig c9Nodes c9Edges "F9" 3 c9F)
        c9Edges := by
    rw [layout_eq_standard hfF]
  have hCE : constructLayoutEdges
      (Graph2DLayout.standardFinalState defaultConfig c9Nodes c9Edges "F9" 3 c9F) c9Edges =
      [⟨"F9", "R9", EdgeType.relation, ⟨0, 0⟩, ⟨200, 0⟩, true⟩] := hlink.symm.trans heval
  refine ⟨heval, ?_, ?_⟩
  · exact ((c9_edge_semantics defaultConfig c9Nodes c9Edges "F9" 3).1
      ⟨"F9", "R9", EdgeType.relation, ⟨0, 0⟩, ⟨200, 0⟩, true⟩
      (by rw [heval]; exact List.mem_cons_self _ _)).1
  · exact (c9_edge_semantics defaultConfig c9Nodes c9Edges "F9" 3).2
      (Graph2DLayout.standardFinalState defaultConfig c9Nodes c9Edges "F9" 3 c9F)
      ⟨"Q9", "W9", EdgeType.relation⟩ (by decide) (Or.inl hQ9)
      ⟨"F9", "R9", EdgeType.relation, ⟨0, 0⟩, ⟨200, 0⟩, true⟩
      (by rw [hCE]; exact List.mem_cons_self _ _)

theorem c10_witness :
    buildNodeContext "s" [c10Node] noOptions = some c10Ctx ∧
    (∃ r ∈ c10Ctx.node.relations, r.targetNodeId = c10Ctx.node.id) ∧
    c10Ctx.node ∈ c10Ctx.backlinks ∧
    c10Ctx.recentlyConnectedNodes.map (fun n => n.id) = ["s"] :=
  ⟨rfl, by decide,
    (c10_self_relation "s" [c10Node] noOptions c10Ctx rfl (by decide)).1, by decide⟩

end Rehilo
